import Mathlib

/-!
Shallow embedding of `free-ugc-bulk-purchaser` (src/main.rs).

The program walks a paginated marketplace catalog, filters items through an
ownership/creator eligibility check, and issues an acquisition request per
eligible item with an unbounded retry loop.  Network interactions are modelled
by scripted response lists, one list per remote endpoint, consumed in call
order; a run also produces a trace of observable events (network calls,
printed status lines, sleeps, tally increments).  Script exhaustion — which in
the real program corresponds to a run that would keep issuing calls forever —
is modelled by the `Option` layer returning `none`.
-/

namespace FreeUgc

/-- Structured error object of the acquisition response body
(struct `ApiError` in src/main.rs). -/
structure ApiError where
  code : Nat
deriving DecidableEq

/-- Body of the acquisition response
(struct `AssetPurchaseResponse` in src/main.rs): an optional list of errors. -/
structure AssetPurchaseResponse where
  errors : Option (List ApiError)
deriving DecidableEq

/-- One catalog item (struct `MarketplaceQueryResponseItem` in src/main.rs). -/
structure MarketplaceItem where
  id : Nat
  name : String
  productId : Nat
  creatorType : String
  creatorTargetId : Nat
  price : Option Nat
  itemType : String
deriving DecidableEq

/-- One catalog page (struct `MarketplaceQueryResponse` in src/main.rs):
an optional continuation cursor and an optional list of items. -/
structure MarketplaceQueryResponse where
  nextPageCursor : Option String
  data : Option (List MarketplaceItem)
deriving DecidableEq

/-- Outcome of one `purchase_asset` network call followed by body decoding:
the send itself can transport-fail (the `if let Ok` else-branch), the body
decode can fail (the `?` on `.json::<AssetPurchaseResponse>()`), or a decoded
body is produced. -/
inductive PurchaseResult where
  | transportErr
  | decodeErr
  | ok (body : AssetPurchaseResponse)
deriving DecidableEq

/-- Outcome of one `get_authenticated_user` call: transport/decode failure
(propagated by `?`) or the caller's numeric id. -/
inductive WhoAmIResult where
  | err
  | ok (id : Nat)
deriving DecidableEq

/-- Outcome of one inventory is-owned call: transport/decode failure
(propagated by `?`) or a boolean. -/
inductive OwnedResult where
  | err
  | ok (owned : Bool)
deriving DecidableEq

/-- Outcome of one catalog page fetch: transport/decode failure (propagated by
`?` in `main`) or a decoded page body. -/
inductive PageResult where
  | err
  | ok (body : MarketplaceQueryResponse)
deriving DecidableEq

/-- Observable events of a run: network calls, printed status lines, the two
sleeps, tally increments, and a marker for each item reached by the per-item
loop body in `main`. -/
inductive Event where
  | callPage
  | callWhoAmI
  | callOwned
  | callPurchase
  | visit (id : Nat)
  | printNoPrice
  | printRatelimit
  | printFailed
  | printPurchased
  | printDone
  | sleep (secs : Nat)
  | incrementTally
deriving DecidableEq

/-- Errors that propagate to `main` and abort the run (the `Box<dyn Error>`
channel), distinguished by origin. -/
inductive RunError where
  | pageErr
  | whoamiErr
  | ownedErr
  | purchaseDecodeErr
deriving DecidableEq

/-- The scripted network: pending responses of the who-am-I endpoint, the
inventory is-owned endpoint, and the acquisition endpoint, each consumed in
call order. -/
structure Net where
  whoami : List WhoAmIResult
  owned : List OwnedResult
  purchases : List PurchaseResult
deriving DecidableEq

/-- Model of `get_authenticated_user`: one who-am-I network call, whose
failure propagates. -/
def getAuthenticatedUser (net : Net) :
    Option (List Event × Except RunError Nat × Net) :=
  match net.whoami with
  | [] => none
  | r :: rest =>
    match r with
    | .err => some ([.callWhoAmI], .error .whoamiErr, { net with whoami := rest })
    | .ok uid => some ([.callWhoAmI], .ok uid, { net with whoami := rest })

/-- Model of `authenticated_user_owns_bundle`: resolves the authenticated user
(a fresh who-am-I call on every invocation), then issues the is-owned call;
either failure propagates. -/
def authenticatedUserOwnsBundle (net : Net) :
    Option (List Event × Except RunError Bool × Net) :=
  match getAuthenticatedUser net with
  | none => none
  | some (evs, .error e, net1) => some (evs, .error e, net1)
  | some (evs, .ok _uid, net1) =>
    match net1.owned with
    | [] => none
    | r :: rest =>
      match r with
      | .err => some (evs ++ [.callOwned], .error .ownedErr, { net1 with owned := rest })
      | .ok b => some (evs ++ [.callOwned], .ok b, { net1 with owned := rest })

/-- Model of `is_asset_available`: not available when owned, or when the
creator type is "User" with the reserved creator id 1; an ownership-check
failure propagates. -/
def isAssetAvailable (asset : MarketplaceItem) (net : Net) :
    Option (List Event × Except RunError Bool × Net) :=
  match authenticatedUserOwnsBundle net with
  | none => none
  | some (evs, .error e, net1) => some (evs, .error e, net1)
  | some (evs, .ok owned, net1) =>
    if owned then some (evs, .ok false, net1)
    else if asset.creatorType == "User" && asset.creatorTargetId == 1 then
      some (evs, .ok false, net1)
    else
      some (evs, .ok true, net1)

/-- The status lines and sleeps emitted by the for-loop over the structured
errors of an acquisition response in `attempt_purchase`: a 65-second sleep
per code-27 error, a failure line per other error. -/
def purchaseErrorEvents (errs : List ApiError) : List Event :=
  errs.flatMap fun e =>
    if e.code == 27 then [Event.printRatelimit, Event.sleep 65] else [Event.printFailed]

/-- Model of `attempt_purchase` for one item, keyed by its price field and the
pending acquisition-endpoint script.  A no-price item is skipped before any
call.  Otherwise one scripted call is consumed: a transport failure prints a
failure line and retries the whole attempt; a decode failure of the body
propagates (the `?`); a body with an errors list runs the error loop and
retries the whole attempt; a body with no errors prints success and sleeps
one second. -/
def attemptPurchase (price : Option Nat) :
    List PurchaseResult → Option (List Event × Except RunError Unit × List PurchaseResult)
  | [] =>
    if price.isNone then some ([.printNoPrice], .ok (), []) else none
  | r :: rest =>
    if price.isNone then some ([.printNoPrice], .ok (), r :: rest)
    else
      match r with
      | .transportErr =>
        match attemptPurchase price rest with
        | none => none
        | some (evs, res, rem) => some (.callPurchase :: .printFailed :: evs, res, rem)
      | .decodeErr => some ([.callPurchase], .error .purchaseDecodeErr, rest)
      | .ok body =>
        match body.errors with
        | none => some ([.callPurchase, .printPurchased, .sleep 1], .ok (), rest)
        | some errs =>
          match attemptPurchase price rest with
          | none => none
          | some (evs, res, rem) =>
            some (.callPurchase :: (purchaseErrorEvents errs ++ evs), res, rem)

/-- One iteration of the per-item loop body in `main`: run the eligibility
check, and when the item is available run `attempt_purchase` and increment
the tally as soon as it returns.  The returned boolean records whether
`purchased_items` was incremented for this item. -/
def processItem (asset : MarketplaceItem) (net : Net) :
    Option (List Event × Except RunError Bool × Net) :=
  match isAssetAvailable asset net with
  | none => none
  | some (evs, .error e, net1) => some (.visit asset.id :: evs, .error e, net1)
  | some (evs, .ok avail, net1) =>
    if avail then
      match attemptPurchase asset.price net1.purchases with
      | none => none
      | some (pevs, .error e, rem) =>
        some (.visit asset.id :: (evs ++ pevs), .error e, { net1 with purchases := rem })
      | some (pevs, .ok _, rem) =>
        some (.visit asset.id :: (evs ++ pevs ++ [.incrementTally]), .ok true,
              { net1 with purchases := rem })
    else
      some (.visit asset.id :: evs, .ok false, net1)

/-- The per-item loop of `main` over one page's item list, in list order; an
error propagating from any item aborts the loop.  Returns the number of tally
increments contributed by the page. -/
def processItems :
    List MarketplaceItem → Net → Option (List Event × Except RunError Nat × Net)
  | [], net => some ([], .ok 0, net)
  | a :: rest, net =>
    match processItem a net with
    | none => none
    | some (evs, .error e, net1) => some (evs, .error e, net1)
    | some (evs, .ok inc, net1) =>
      match processItems rest net1 with
      | none => none
      | some (evs2, .error e, net2) => some (evs ++ evs2, .error e, net2)
      | some (evs2, .ok n, net2) =>
        some (evs ++ evs2, .ok ((if inc then 1 else 0) + n), net2)

/-- The pagination loop of `main` over a scripted list of page-fetch
outcomes.  Each iteration fetches one page (failure propagates), stops with
the final report when the page has no data, otherwise processes the items and
stops with the final report when the page has no next cursor. -/
def runPages :
    List PageResult → Net → Option (List Event × Except RunError Unit)
  | [], _ => none
  | p :: rest, net =>
    match p with
    | .err => some ([.callPage], .error .pageErr)
    | .ok body =>
      match body.data with
      | none => some ([.callPage, .printDone], .ok ())
      | some items =>
        match processItems items net with
        | none => none
        | some (evs, .error e, _) => some (.callPage :: evs, .error e)
        | some (evs, .ok _, net1) =>
          match body.nextPageCursor with
          | none => some (.callPage :: (evs ++ [.printDone]), .ok ())
          | some _ =>
            match runPages rest net1 with
            | none => none
            | some (evs2, res) => some (.callPage :: (evs ++ evs2), res)

/-- One metadata tag of the scraped HTML page: its optional `name` attribute
and optional `data-token` attribute. -/
structure MetaNode where
  name : Option String
  dataToken : Option String
deriving DecidableEq

/-- The scan loop of `get_csrf_token` over the page's meta tags: return the
`data-token` value of the first tag whose `name` attribute is "csrf-token"
and which carries a `data-token` attribute; fall through to the empty string
when no tag qualifies. -/
def getCsrfToken : List MetaNode → String
  | [] => ""
  | n :: rest =>
    match n.name with
    | none => getCsrfToken rest
    | some attr =>
      if attr == "csrf-token" then
        match n.dataToken with
        | some v => v
        | none => getCsrfToken rest
      else getCsrfToken rest

/-- Outcome of fetching the token-bearing HTML page. -/
inductive CsrfFetchResult where
  | err
  | ok (nodes : List MetaNode)
deriving DecidableEq

/-- Model of `get_csrf_token` end to end: the page fetch can fail (the `?`),
but once a page body is in hand the scan itself always succeeds. -/
def getCsrfTokenRun : CsrfFetchResult → Except RunError String
  | .err => .error .pageErr
  | .ok nodes => .ok (getCsrfToken nodes)

/-- The item ids reached by the per-item loop, in trace order. -/
def visits (trace : List Event) : List Nat :=
  trace.filterMap fun e =>
    match e with
    | .visit i => some i
    | _ => none

end FreeUgc

deriving instance DecidableEq for Except

namespace FreeUgc

/-! Helper lemmas about the traces of the acquisition executor. -/

theorem purchaseErrorEvents_mem {e : Event} (errs : List ApiError)
    (h : e ∈ purchaseErrorEvents errs) :
    e = .printRatelimit ∨ e = .sleep 65 ∨ e = .printFailed := by
  simp only [purchaseErrorEvents, List.mem_flatMap] at h
  obtain ⟨a, -, hmem⟩ := h
  split at hmem <;> simp_all
  tauto

theorem attemptPurchase_events {e : Event} (price : Option Nat) :
    ∀ (script : List PurchaseResult) out,
      attemptPurchase price script = some out → e ∈ out.1 →
      e = .callPurchase ∨ e = .printNoPrice ∨ e = .printFailed ∨ e = .printRatelimit ∨
        e = .sleep 65 ∨ e = .printPurchased ∨ e = .sleep 1 := by
  intro script
  induction script with
  | nil =>
    intro out h hmem
    unfold attemptPurchase at h
    split at h
    · cases h; simp_all
    · cases h
  | cons r rest ih =>
    intro out h hmem
    unfold attemptPurchase at h
    split at h
    · cases h; simp_all
    · split at h
      · -- transport failure
        split at h
        · cases h
        · rename_i evs res rem heq
          cases h
          simp only [List.mem_cons] at hmem
          rcases hmem with h1 | h1 | h1
          · tauto
          · tauto
          · exact ih _ heq h1
      · -- decode failure
        cases h; simp_all
      · -- decoded body
        split at h
        · cases h; simp_all; tauto
        · rename_i errs heqe
          split at h
          · cases h
          · rename_i evs res rem heq
            cases h
            simp only [List.mem_cons, List.mem_append] at hmem
            rcases hmem with h1 | h1 | h1
            · tauto
            · rcases purchaseErrorEvents_mem errs h1 with h3 | h3 | h3 <;> tauto
            · exact ih _ heq h1

theorem getAuthenticatedUser_frame (net : Net) :
    ∀ out, getAuthenticatedUser net = some out →
      out.1 = [Event.callWhoAmI] ∧ out.2.2.owned = net.owned ∧
        out.2.2.purchases = net.purchases := by
  intro out h
  unfold getAuthenticatedUser at h
  split at h
  · cases h
  · split at h <;> (cases h; exact ⟨rfl, rfl, rfl⟩)

theorem authenticatedUserOwnsBundle_frame (net : Net) :
    ∀ out, authenticatedUserOwnsBundle net = some out →
      (out.1 = [Event.callWhoAmI] ∨ out.1 = [Event.callWhoAmI, Event.callOwned]) ∧
        out.2.2.purchases = net.purchases := by
  intro out h
  unfold authenticatedUserOwnsBundle at h
  split at h
  · cases h
  · rename_i evs e net1 heq
    cases h
    obtain ⟨h1, -, h3⟩ := getAuthenticatedUser_frame net _ heq
    exact ⟨Or.inl h1, h3⟩
  · rename_i evs uid net1 heq
    obtain ⟨h1, -, h3⟩ := getAuthenticatedUser_frame net _ heq
    split at h
    · cases h
    · split at h <;> (cases h; refine ⟨Or.inr ?_, ?_⟩ <;> simp_all)

theorem isAssetAvailable_frame (asset : MarketplaceItem) (net : Net) :
    ∀ out, isAssetAvailable asset net = some out →
      (out.1 = [Event.callWhoAmI] ∨ out.1 = [Event.callWhoAmI, Event.callOwned]) ∧
        out.2.2.purchases = net.purchases := by
  intro out h
  unfold isAssetAvailable at h
  split at h
  · cases h
  · rename_i evs e net1 heq
    cases h
    exact authenticatedUserOwnsBundle_frame net _ heq
  · rename_i evs owned net1 heq
    have hfr := authenticatedUserOwnsBundle_frame net _ heq
    split at h
    · cases h; exact hfr
    · split at h <;> (cases h; exact hfr)

/-- C7: for every item whose price field is absent, `attempt_purchase`
terminates immediately as a skip after the informational "no price" line: no
acquisition network call is issued (the pending acquisition script is left
untouched and the trace holds no call event) and no retry is performed. -/
theorem noPrice_skips_immediately (script : List PurchaseResult) :
    attemptPurchase none script =
      some ([Event.printNoPrice], Except.ok (), script) := by
  cases script <;> simp [attemptPurchase]

/-- C6: on an acquisition response carrying the single structured error of
code 27, the executor sleeps 65 seconds after the rate-limit line and then the
whole attempt is retried against the remaining script (an identical request
for the same item); on a response with no errors it prints success, sleeps
exactly 1 second, and stops retrying — no further acquisition call is consumed
for that item. -/
theorem ratelimit_sleeps_and_retries_success_sleeps_and_stops :
    (∀ (p : Nat) (rest : List PurchaseResult),
        attemptPurchase (some p) (.ok ⟨some [⟨27⟩]⟩ :: rest) =
          (attemptPurchase (some p) rest).map fun out =>
            (.callPurchase :: .printRatelimit :: .sleep 65 :: out.1, out.2.1, out.2.2))
    ∧ (∀ (p : Nat) (rest : List PurchaseResult),
        attemptPurchase (some p) (.ok ⟨none⟩ :: rest) =
          some ([.callPurchase, .printPurchased, .sleep 1], .ok (), rest)) := by
  constructor
  · intro p rest
    cases h : attemptPurchase (some p) rest with
    | none => simp [attemptPurchase, h, purchaseErrorEvents]
    | some out =>
      obtain ⟨evs, res, rem⟩ := out
      simp [attemptPurchase, h, purchaseErrorEvents]
  · intro p rest
    simp [attemptPurchase]

/-- C10: an acquisition response whose errors field is present but holds an
empty list is not treated as a success: the executor prints nothing, sleeps
nothing, and immediately retries the whole attempt against the remaining
script; only a response whose errors field is entirely absent produces the
success outcome (success line, 1-second sleep, no further call). -/
theorem empty_error_list_retries_not_success :
    (∀ (p : Nat) (rest : List PurchaseResult),
        attemptPurchase (some p) (.ok ⟨some []⟩ :: rest) =
          (attemptPurchase (some p) rest).map fun out =>
            (.callPurchase :: out.1, out.2.1, out.2.2))
    ∧ (∀ (p : Nat) (rest : List PurchaseResult),
        attemptPurchase (some p) (.ok ⟨none⟩ :: rest) =
          some ([.callPurchase, .printPurchased, .sleep 1], .ok (), rest)) := by
  constructor
  · intro p rest
    cases h : attemptPurchase (some p) rest with
    | none => simp [attemptPurchase, h, purchaseErrorEvents]
    | some out =>
      obtain ⟨evs, res, rem⟩ := out
      simp [attemptPurchase, h, purchaseErrorEvents]
  · intro p rest
    simp [attemptPurchase]

/-- Specification of the token scan, phrased as the claim states it: the value
of the first metadata tag whose name attribute is "csrf-token" and which
carries a value, or the empty string when no such tag exists. -/
def csrfTokenSpec (nodes : List MetaNode) : String :=
  match nodes.find? fun n => n.name == some "csrf-token" && n.dataToken.isSome with
  | some n => n.dataToken.getD ""
  | none => ""

/-- C9: `get_csrf_token` scans the metadata tags in order and returns, as a
success, the value of the first tag whose name attribute is "csrf-token" and
which carries a value; when no such tag exists it returns the empty-string
token, still as a success and never as an error. -/
theorem csrf_scan_first_match_or_empty (nodes : List MetaNode) :
    getCsrfTokenRun (.ok nodes) = .ok (csrfTokenSpec nodes) := by
  simp only [getCsrfTokenRun, Except.ok.injEq]
  induction nodes with
  | nil => rfl
  | cons n rest ih =>
    cases hname : n.name with
    | none =>
      simp [getCsrfToken, csrfTokenSpec, List.find?_cons, hname, ih]
    | some attr =>
      by_cases hattr : attr = "csrf-token"
      · subst hattr
        cases htok : n.dataToken with
        | none =>
          simp [getCsrfToken, csrfTokenSpec, List.find?_cons, hname, htok]
          exact ih
        | some v =>
          simp [getCsrfToken, csrfTokenSpec, List.find?_cons, hname, htok]
      · simp [getCsrfToken, csrfTokenSpec, List.find?_cons, hname, hattr]
        exact ih

theorem attemptPurchase_no_tally (price : Option Nat) (script : List PurchaseResult)
    (out : List Event × Except RunError Unit × List PurchaseResult)
    (h : attemptPurchase price script = some out) : Event.incrementTally ∉ out.1 := by
  intro hmem
  rcases attemptPurchase_events price script out h hmem with h1 | h1 | h1 | h1 | h1 | h1 | h1 <;>
    cases h1

theorem isAssetAvailable_no_tally (asset : MarketplaceItem) (net : Net)
    (out : List Event × Except RunError Bool × Net)
    (h : isAssetAvailable asset net = some out) :
    Event.incrementTally ∉ out.1 ∧ Event.callPurchase ∉ out.1 := by
  obtain ⟨h1, -⟩ := isAssetAvailable_frame asset net out h
  rcases h1 with h1 | h1 <;> rw [h1] <;> simp

/-- C5: an item the authenticated user already owns is reported not available,
as is an item of creator type "User" with the reserved creator id 1; a failed
is-owned call (and a failed who-am-I call inside it) propagates as an error
rather than being treated as not eligible; and an item found not available is
never passed to the acquisition executor — its processing issues no
acquisition call and leaves the acquisition script untouched. -/
theorem eligibility_filter_contract :
    (∀ (asset : MarketplaceItem) (uid : Nat) (w : List WhoAmIResult)
        (o : List OwnedResult) (ps : List PurchaseResult),
        isAssetAvailable asset ⟨.ok uid :: w, .ok true :: o, ps⟩ =
          some ([.callWhoAmI, .callOwned], .ok false, ⟨w, o, ps⟩))
    ∧ (∀ (asset : MarketplaceItem) (uid : Nat) (w : List WhoAmIResult)
        (o : List OwnedResult) (ps : List PurchaseResult),
        asset.creatorType = "User" → asset.creatorTargetId = 1 →
        isAssetAvailable asset ⟨.ok uid :: w, .ok false :: o, ps⟩ =
          some ([.callWhoAmI, .callOwned], .ok false, ⟨w, o, ps⟩))
    ∧ (∀ (asset : MarketplaceItem) (uid : Nat) (w : List WhoAmIResult)
        (o : List OwnedResult) (ps : List PurchaseResult),
        isAssetAvailable asset ⟨.ok uid :: w, .err :: o, ps⟩ =
          some ([.callWhoAmI, .callOwned], .error .ownedErr, ⟨w, o, ps⟩))
    ∧ (∀ (asset : MarketplaceItem) (w : List WhoAmIResult)
        (o : List OwnedResult) (ps : List PurchaseResult),
        isAssetAvailable asset ⟨.err :: w, o, ps⟩ =
          some ([.callWhoAmI], .error .whoamiErr, ⟨w, o, ps⟩))
    ∧ (∀ (asset : MarketplaceItem) (net : Net) (evs : List Event) (net1 : Net),
        processItem asset net = some (evs, .ok false, net1) →
        evs.count .callPurchase = 0 ∧ net1.purchases = net.purchases) := by
  refine ⟨?_, ?_, ?_, ?_, ?_⟩
  · intro asset uid w o ps
    rfl
  · intro asset uid w o ps h1 h2
    simp [isAssetAvailable, authenticatedUserOwnsBundle, getAuthenticatedUser, h1, h2]
  · intro asset uid w o ps
    rfl
  · intro asset w o ps
    rfl
  · intro asset net evs net1 h
    unfold processItem at h
    split at h
    · cases h
    · cases h
    · rename_i evsA avail netA heq
      split at h
      · split at h
        · cases h
        · cases h
        · cases h
      · cases h
        obtain ⟨h1, h2⟩ := isAssetAvailable_frame asset net _ heq
        constructor
        · rcases h1 with h1 | h1 <;> simp_all [List.count_cons]
        · exact h2

/-- C8: one item contributes at most one tally increment, however many
retries (transport failures or rate-limit cool-downs) its acquisition needed:
the trace of processing a single item never holds more than one
`incrementTally` event, for every scripted network. -/
theorem item_counted_at_most_once (asset : MarketplaceItem) (net : Net)
    (evs : List Event) (res : Except RunError Bool) (net1 : Net)
    (h : processItem asset net = some (evs, res, net1)) :
    evs.count .incrementTally ≤ 1 := by
  unfold processItem at h
  split at h
  · cases h
  · rename_i evsA e netA heq
    cases h
    obtain ⟨hnt, -⟩ := isAssetAvailable_no_tally asset net _ heq
    simp [List.count_cons, List.count_eq_zero.mpr hnt]
  · rename_i evsA avail netA heq
    obtain ⟨hnt, -⟩ := isAssetAvailable_no_tally asset net _ heq
    split at h
    · split at h
      · cases h
      · rename_i pevs e rem heqp
        cases h
        have hp := attemptPurchase_no_tally asset.price netA.purchases _ heqp
        simp [List.count_cons, List.count_append,
          List.count_eq_zero.mpr hnt, List.count_eq_zero.mpr hp]
      · rename_i pevs u rem heqp
        cases h
        have hp := attemptPurchase_no_tally asset.price netA.purchases _ heqp
        simp [List.count_cons, List.count_append,
          List.count_eq_zero.mpr hnt, List.count_eq_zero.mpr hp]
    · cases h
      simp [List.count_cons, List.count_eq_zero.mpr hnt]

theorem getAuthenticatedUser_error (net : Net)
    (out : List Event × Except RunError Nat × Net)
    (h : getAuthenticatedUser net = some out) :
    ∀ e, out.2.1 = .error e → e = RunError.whoamiErr := by
  unfold getAuthenticatedUser at h
  split at h
  · cases h
  · split at h <;> cases h <;> intro e he <;> simp_all

theorem authenticatedUserOwnsBundle_error (net : Net)
    (out : List Event × Except RunError Bool × Net)
    (h : authenticatedUserOwnsBundle net = some out) :
    ∀ e, out.2.1 = .error e → e = RunError.whoamiErr ∨ e = RunError.ownedErr := by
  unfold authenticatedUserOwnsBundle at h
  split at h
  · cases h
  · rename_i evs e0 net1 heq
    cases h
    intro e he
    have he0 : e0 = e := by simpa using he
    subst he0
    exact Or.inl (getAuthenticatedUser_error net _ heq e0 rfl)
  · split at h
    · cases h
    · split at h <;> cases h <;> intro e he <;> simp_all

theorem isAssetAvailable_error (asset : MarketplaceItem) (net : Net)
    (out : List Event × Except RunError Bool × Net)
    (h : isAssetAvailable asset net = some out) :
    ∀ e, out.2.1 = .error e → e = RunError.whoamiErr ∨ e = RunError.ownedErr := by
  unfold isAssetAvailable at h
  split at h
  · cases h
  · rename_i evs e0 net1 heq
    cases h
    exact authenticatedUserOwnsBundle_error net _ heq
  · rename_i evs owned net1 heq
    split at h
    · cases h; intro e he; simp_all
    · split at h <;> cases h <;> intro e he <;> simp_all

/-- C2 (amended): once the main loop runs, an item's processing aborts the run
only through two channels: `attempt_purchase` returns an error only when the
acquisition response body failed to decode (transport failures and structured
error responses are always retried, never propagated), and the eligibility
check propagates only the failures of its own two network calls (the embedded
who-am-I call and the is-owned call). -/
theorem item_failures_retried_except_eligibility_and_decode :
    (∀ (price : Option Nat) (script : List PurchaseResult)
        (out : List Event × Except RunError Unit × List PurchaseResult),
        attemptPurchase price script = some out →
        out.2.1 = .ok () ∨
          (out.2.1 = .error .purchaseDecodeErr ∧ PurchaseResult.decodeErr ∈ script))
    ∧ (∀ (asset : MarketplaceItem) (net : Net)
        (out : List Event × Except RunError Bool × Net),
        isAssetAvailable asset net = some out →
        ∀ e, out.2.1 = .error e → e = RunError.whoamiErr ∨ e = RunError.ownedErr) := by
  constructor
  · intro price script
    induction script with
    | nil =>
      intro out h
      unfold attemptPurchase at h
      split at h
      · cases h; exact Or.inl rfl
      · cases h
    | cons r rest ih =>
      intro out h
      unfold attemptPurchase at h
      split at h
      · cases h; exact Or.inl rfl
      · split at h
        · split at h
          · cases h
          · rename_i evs res rem heq
            cases h
            rcases ih _ heq with h1 | ⟨h1, h2⟩
            · exact Or.inl h1
            · exact Or.inr ⟨h1, List.mem_cons_of_mem _ h2⟩
        · cases h
          exact Or.inr ⟨rfl, List.mem_cons_self _ _⟩
        · split at h
          · cases h; exact Or.inl rfl
          · split at h
            · cases h
            · rename_i errs heqe evs res rem heq
              cases h
              rcases ih _ heq with h1 | ⟨h1, h2⟩
              · exact Or.inl h1
              · exact Or.inr ⟨h1, List.mem_cons_of_mem _ h2⟩
  · exact isAssetAvailable_error

/-- Items used by the concrete scripted scenarios below: an item the caller
already owns, an eligible free item, and an eligible item with no price. -/
def ownedItem : MarketplaceItem := ⟨10, "a", 100, "Group", 5, some 0, "Bundle"⟩

def freeItem : MarketplaceItem := ⟨11, "b", 101, "Group", 6, some 0, "Bundle"⟩

def nopriceItem : MarketplaceItem := ⟨12, "c", 102, "Group", 7, none, "Bundle"⟩

/-- Trace of the run refuting C2 as stated: one page with one eligible priced
item whose acquisition response body fails to decode. -/
def decodeAbortTrace : List Event :=
  [.callPage, .visit 11, .callWhoAmI, .callOwned, .callPurchase]

/-- C2 (counterexample): a decode failure of the acquisition response body —
an error arising inside `attempt_purchase`, not inside the eligibility
check — propagates and aborts the whole run. -/
theorem purchase_decode_error_aborts_run :
    runPages [.ok ⟨none, some [freeItem]⟩] ⟨[.ok 42], [.ok false], [.decodeErr]⟩ =
      some (decodeAbortTrace, .error .purchaseDecodeErr) := rfl

/-- Trace of the run exhibiting the C1 divergence: one terminal page holding a
single eligible item whose price is absent. -/
def nopriceRunTrace : List Event :=
  [.callPage, .visit 12, .callWhoAmI, .callOwned, .printNoPrice,
   .incrementTally, .printDone]

/-- C1: evaluation at the failing input.  An eligible item with an absent
price is skipped by `attempt_purchase` (informational note, no acquisition
call, no success report), yet the orchestration still increments
`purchased_items` once `attempt_purchase` returns: the run ends with a tally
of 1 although nothing was purchased.  This refutes the claim that a Skipped
item contributes 0 and that returning normally implies success. -/
theorem tally_counts_skipped_noprice_item :
    runPages [.ok ⟨none, some [nopriceItem]⟩] ⟨[.ok 42], [.ok false], []⟩ =
      some (nopriceRunTrace, .ok ())
    ∧ nopriceRunTrace.count .incrementTally = 1
    ∧ nopriceRunTrace.count .printPurchased = 0
    ∧ nopriceRunTrace.count .callPurchase = 0 :=
  ⟨rfl, by decide, by decide, by decide⟩

/-- Trace of the scripted two-page scenario of C3: page one holds one owned
item and one eligible free item, page two is terminal with no data. -/
def twoPageTrace : List Event :=
  [.callPage, .visit 10, .callWhoAmI, .callOwned, .visit 11, .callWhoAmI,
   .callOwned, .callPurchase, .printPurchased, .sleep 1, .incrementTally,
   .callPage, .printDone]

/-- C3 (counterexample): in the scripted two-page scenario the acting user's
numeric id is resolved by a who-am-I network call twice — once per ownership
check — not at most once per run. -/
theorem userid_resolved_per_ownership_check :
    runPages [.ok ⟨some "c", some [ownedItem, freeItem]⟩, .ok ⟨none, none⟩]
        ⟨[.ok 42, .ok 42], [.ok true, .ok false], [.ok ⟨none⟩]⟩ =
      some (twoPageTrace, .ok ())
    ∧ ¬ twoPageTrace.count .callWhoAmI ≤ 1 :=
  ⟨rfl, by decide⟩

/-- C3 (amended): in the scripted two-page scenario the network calls are
exactly 2 page fetches, 2 who-am-I calls (one per ownership check, since
`authenticated_user_owns_bundle` re-resolves the user id on every
invocation), 2 ownership checks and 1 acquisition call, and the tally is 1. -/
theorem two_page_scenario_call_counts :
    runPages [.ok ⟨some "c", some [ownedItem, freeItem]⟩, .ok ⟨none, none⟩]
        ⟨[.ok 42, .ok 42], [.ok true, .ok false], [.ok ⟨none⟩]⟩ =
      some (twoPageTrace, .ok ())
    ∧ twoPageTrace.count .callPage = 2
    ∧ twoPageTrace.count .callWhoAmI = 2
    ∧ twoPageTrace.count .callOwned = 2
    ∧ twoPageTrace.count .callPurchase = 1
    ∧ twoPageTrace.count .incrementTally = 1 :=
  ⟨rfl, by decide, by decide, by decide, by decide, by decide⟩

/-- C4 (counterexample): with N = 1 scripted non-terminal page (data present,
next cursor present) followed by one terminal page, the run issues 2 page
fetches, not N = 1: the terminal page must itself be fetched to discover
termination. -/
theorem terminal_page_is_also_fetched :
    runPages [.ok ⟨some "c", some []⟩, .ok ⟨none, none⟩] ⟨[], [], []⟩ =
      some ([.callPage, .callPage, .printDone], .ok ())
    ∧ ¬ ([.callPage, .callPage, .printDone] : List Event).count .callPage = 1 :=
  ⟨rfl, by decide⟩

/-- Events generated by processing one item that turns out to be owned. -/
def itemVisitEvents (a : MarketplaceItem) : List Event :=
  [.visit a.id, .callWhoAmI, .callOwned]

/-- Events generated by one non-terminal page whose items are all owned. -/
def ownedPageEvents (p : MarketplaceQueryResponse) : List Event :=
  .callPage :: (p.data.getD []).flatMap itemVisitEvents

/-- Trace of a whole run over non-terminal pages `L` followed by terminal
page `t`, when every item is owned. -/
def ownedRunTrace (L : List MarketplaceQueryResponse)
    (t : MarketplaceQueryResponse) : List Event :=
  L.flatMap ownedPageEvents ++
    (match t.data with
     | none => [.callPage, .printDone]
     | some its => .callPage :: (its.flatMap itemVisitEvents ++ [.printDone]))

theorem processItem_owned (a : MarketplaceItem) (uid : Nat)
    (w : List WhoAmIResult) (o : List OwnedResult) (ps : List PurchaseResult) :
    processItem a ⟨.ok uid :: w, .ok true :: o, ps⟩ =
      some (itemVisitEvents a, .ok false, ⟨w, o, ps⟩) := rfl

theorem processItems_owned :
    ∀ (items : List MarketplaceItem) (m1 m2 uid : Nat) (ps : List PurchaseResult),
      items.length ≤ m1 → items.length ≤ m2 →
      processItems items
          ⟨List.replicate m1 (.ok uid), List.replicate m2 (.ok true), ps⟩ =
        some (items.flatMap itemVisitEvents, .ok 0,
              ⟨List.replicate (m1 - items.length) (.ok uid),
               List.replicate (m2 - items.length) (.ok true), ps⟩) := by
  intro items
  induction items with
  | nil =>
    intro m1 m2 uid ps h1 h2
    simp [processItems]
  | cons a rest ih =>
    intro m1 m2 uid ps h1 h2
    obtain ⟨n1, rfl⟩ : ∃ n, m1 = n + 1 := ⟨m1 - 1, by simp at h1; omega⟩
    obtain ⟨n2, rfl⟩ : ∃ n, m2 = n + 1 := ⟨m2 - 1, by simp at h2; omega⟩
    have hr1 : rest.length ≤ n1 := by simp at h1; omega
    have hr2 : rest.length ≤ n2 := by simp at h2; omega
    rw [List.replicate_succ, List.replicate_succ]
    simp only [processItems, processItem_owned]
    rw [ih n1 n2 uid ps hr1 hr2]
    simp [Nat.succ_sub_succ]

theorem runPages_owned :
    ∀ (L : List MarketplaceQueryResponse) (t : MarketplaceQueryResponse)
      (m1 m2 uid : Nat) (ps : List PurchaseResult),
      (∀ p ∈ L, p.data.isSome ∧ p.nextPageCursor.isSome) →
      (t.data = none ∨ t.nextPageCursor = none) →
      ((L.flatMap fun p => p.data.getD []) ++ t.data.getD []).length ≤ m1 →
      ((L.flatMap fun p => p.data.getD []) ++ t.data.getD []).length ≤ m2 →
      runPages (L.map .ok ++ [.ok t])
          ⟨List.replicate m1 (.ok uid), List.replicate m2 (.ok true), ps⟩ =
        some (ownedRunTrace L t, .ok ()) := by
  intro L
  induction L with
  | nil =>
    intro t m1 m2 uid ps hL ht h1 h2
    cases htd : t.data with
    | none =>
      simp [runPages, ownedRunTrace, htd]
    | some its =>
      have htc : t.nextPageCursor = none := by
        rcases ht with h | h
        · rw [htd] at h; cases h
        · exact h
      have hlen1 : its.length ≤ m1 := by simpa [htd] using h1
      have hlen2 : its.length ≤ m2 := by simpa [htd] using h2
      simp only [List.map_nil, List.nil_append, runPages, htd]
      rw [processItems_owned its m1 m2 uid ps hlen1 hlen2]
      simp [htc, ownedRunTrace, htd]
  | cons p L ih =>
    intro t m1 m2 uid ps hL ht h1 h2
    obtain ⟨hpd, hpc⟩ := hL p (List.mem_cons_self p L)
    obtain ⟨items, hitems⟩ := Option.isSome_iff_exists.mp hpd
    obtain ⟨c, hc⟩ := Option.isSome_iff_exists.mp hpc
    have hsplit :
        ((p :: L).flatMap fun q => q.data.getD []).length =
          items.length + ((L.flatMap fun q => q.data.getD [])).length := by
      simp [List.flatMap_cons, hitems]
    have hlen1 : items.length ≤ m1 := by
      simp only [List.length_append] at h1
      omega
    have hlen2 : items.length ≤ m2 := by
      simp only [List.length_append] at h2
      omega
    have hrec1 :
        ((L.flatMap fun q => q.data.getD []) ++ t.data.getD []).length ≤
          m1 - items.length := by
      simp only [List.length_append] at h1 ⊢
      omega
    have hrec2 :
        ((L.flatMap fun q => q.data.getD []) ++ t.data.getD []).length ≤
          m2 - items.length := by
      simp only [List.length_append] at h2 ⊢
      omega
    have hLrest : ∀ q ∈ L, q.data.isSome ∧ q.nextPageCursor.isSome :=
      fun q hq => hL q (List.mem_cons_of_mem p hq)
    simp only [List.map_cons, List.cons_append, runPages, hitems]
    rw [processItems_owned items m1 m2 uid ps hlen1 hlen2]
    simp only [hc, List.append_eq]
    rw [ih t (m1 - items.length) (m2 - items.length) uid ps hLrest ht hrec1 hrec2]
    simp [ownedRunTrace, ownedPageEvents, hitems, List.flatMap_cons]

theorem itemVisitEvents_count_callPage (its : List MarketplaceItem) :
    (its.flatMap itemVisitEvents).count Event.callPage = 0 := by
  induction its with
  | nil => rfl
  | cons a rest ih =>
    simp [List.flatMap_cons, List.count_append, itemVisitEvents, List.count_cons, ih]

theorem ownedRunTrace_count_callPage (L : List MarketplaceQueryResponse)
    (t : MarketplaceQueryResponse) :
    (ownedRunTrace L t).count Event.callPage = L.length + 1 := by
  induction L with
  | nil =>
    cases htd : t.data with
    | none => simp [ownedRunTrace, htd]
    | some its =>
      simp [ownedRunTrace, htd, List.count_cons, List.count_append,
        itemVisitEvents_count_callPage]
  | cons p L ih =>
    have h0 : (ownedRunTrace L t).count Event.callPage = L.length + 1 := ih
    simp only [ownedRunTrace, List.flatMap_cons, List.append_assoc] at h0 ⊢
    simp [List.count_append, ownedPageEvents, List.count_cons,
      itemVisitEvents_count_callPage] at h0 ⊢
    omega

theorem visits_append (l1 l2 : List Event) :
    visits (l1 ++ l2) = visits l1 ++ visits l2 := by
  simp [visits, List.filterMap_append]

theorem visits_itemflat (its : List MarketplaceItem) :
    visits (its.flatMap itemVisitEvents) = its.map fun a => a.id := by
  induction its with
  | nil => rfl
  | cons a rest ih =>
    simp only [List.flatMap_cons, visits_append, ih, List.map_cons]
    rfl

theorem ownedRunTrace_visits (L : List MarketplaceQueryResponse)
    (t : MarketplaceQueryResponse) :
    visits (ownedRunTrace L t) =
      ((L.flatMap fun p => p.data.getD []) ++ t.data.getD []).map fun a => a.id := by
  induction L with
  | nil =>
    cases htd : t.data with
    | none => simp [ownedRunTrace, htd, visits]
    | some its =>
      simp only [ownedRunTrace, htd, List.flatMap_nil, List.nil_append,
        Option.getD_some]
      have h3 : visits (Event.callPage :: (its.flatMap itemVisitEvents ++ [Event.printDone])) =
          visits (its.flatMap itemVisitEvents) := by
        simp [visits, List.filterMap_append]
      rw [h3, visits_itemflat]
  | cons p L ih =>
    simp only [ownedRunTrace, List.flatMap_cons, List.append_assoc, visits_append] at ih ⊢
    rw [ih]
    have h4 : visits (ownedPageEvents p) = (p.data.getD []).map fun a => a.id := by
      have h5 : visits (ownedPageEvents p) =
          visits ((p.data.getD []).flatMap itemVisitEvents) := by
        simp [ownedPageEvents, visits]
      rw [h5, visits_itemflat]
    rw [h4]
    simp [List.map_append]

/-- C4 (amended): for every scripted sequence of N non-terminal pages (each
with item data and a next cursor) followed by one terminal page (no data or no
cursor), the run fetches exactly N + 1 pages — the terminal page is itself
fetched to discover termination — terminates there, and visits each page's
items exactly once, in page order then list order (scripted here with every
item reported as owned, so that the eligibility decision consumes exactly one
who-am-I and one is-owned response per item). -/
theorem pagination_fetches_n_plus_one_pages_in_order
    (L : List MarketplaceQueryResponse) (t : MarketplaceQueryResponse)
    (m1 m2 uid : Nat) (ps : List PurchaseResult)
    (hL : ∀ p ∈ L, p.data.isSome ∧ p.nextPageCursor.isSome)
    (ht : t.data = none ∨ t.nextPageCursor = none)
    (h1 : ((L.flatMap fun p => p.data.getD []) ++ t.data.getD []).length ≤ m1)
    (h2 : ((L.flatMap fun p => p.data.getD []) ++ t.data.getD []).length ≤ m2) :
    runPages (L.map .ok ++ [.ok t])
        ⟨List.replicate m1 (.ok uid), List.replicate m2 (.ok true), ps⟩ =
      some (ownedRunTrace L t, .ok ())
    ∧ (ownedRunTrace L t).count .callPage = L.length + 1
    ∧ visits (ownedRunTrace L t) =
        ((L.flatMap fun p => p.data.getD []) ++ t.data.getD []).map fun a => a.id :=
  ⟨runPages_owned L t m1 m2 uid ps hL ht h1 h2,
   ownedRunTrace_count_callPage L t,
   ownedRunTrace_visits L t⟩

/-- C4 witness: the amended pagination theorem applied to the concrete
one-non-terminal-page script. -/
theorem pagination_fetches_n_plus_one_pages_in_order_witness :
    runPages (([⟨some "c", some [ownedItem]⟩] : List MarketplaceQueryResponse).map .ok ++
        [.ok ⟨none, some [freeItem]⟩])
        ⟨List.replicate 2 (.ok 42), List.replicate 2 (.ok true), []⟩ =
      some (ownedRunTrace [⟨some "c", some [ownedItem]⟩] ⟨none, some [freeItem]⟩, .ok ())
    ∧ (ownedRunTrace [⟨some "c", some [ownedItem]⟩] ⟨none, some [freeItem]⟩).count .callPage =
        ([⟨some "c", some [ownedItem]⟩] : List MarketplaceQueryResponse).length + 1
    ∧ visits (ownedRunTrace [⟨some "c", some [ownedItem]⟩] ⟨none, some [freeItem]⟩) =
        ((([⟨some "c", some [ownedItem]⟩] : List MarketplaceQueryResponse).flatMap
            fun p => p.data.getD []) ++
          (⟨none, some [freeItem]⟩ : MarketplaceQueryResponse).data.getD []).map
            fun a => a.id :=
  pagination_fetches_n_plus_one_pages_in_order
    [⟨some "c", some [ownedItem]⟩] ⟨none, some [freeItem]⟩ 2 2 42 []
    (by decide) (Or.inr rfl) (by decide) (by decide)

/-- C2 witness: the amended propagation theorem applied to the one-call
decode-failure script. -/
theorem item_failures_retried_witness :
    (Except.error RunError.purchaseDecodeErr = (Except.ok () : Except RunError Unit)) ∨
      ((Except.error RunError.purchaseDecodeErr =
          (Except.error RunError.purchaseDecodeErr : Except RunError Unit)) ∧
        PurchaseResult.decodeErr ∈ [PurchaseResult.decodeErr]) :=
  item_failures_retried_except_eligibility_and_decode.1 (some 0) [.decodeErr]
    ([.callPurchase], .error .purchaseDecodeErr, []) rfl

/-- C5 witness: the eligibility contract applied to concrete inputs — an
owned item, a reserved-creator item, a failing is-owned call, a failing
who-am-I call, and the full processing of an owned item. -/
theorem eligibility_filter_contract_witness :
    isAssetAvailable ownedItem ⟨[.ok 42], [.ok true], []⟩ =
      some ([.callWhoAmI, .callOwned], .ok false, ⟨[], [], []⟩)
    ∧ isAssetAvailable ⟨13, "d", 103, "User", 1, some 0, "Bundle"⟩
        ⟨[.ok 42], [.ok false], []⟩ =
      some ([.callWhoAmI, .callOwned], .ok false, ⟨[], [], []⟩)
    ∧ isAssetAvailable ownedItem ⟨[.ok 42], [.err], []⟩ =
      some ([.callWhoAmI, .callOwned], .error .ownedErr, ⟨[], [], []⟩)
    ∧ isAssetAvailable ownedItem ⟨[.err], [], []⟩ =
      some ([.callWhoAmI], .error .whoamiErr, ⟨[], [], []⟩)
    ∧ (([Event.visit 10, .callWhoAmI, .callOwned] : List Event).count .callPurchase = 0 ∧
        (⟨[], [], []⟩ : Net).purchases = (⟨[.ok 42], [.ok true], []⟩ : Net).purchases) :=
  ⟨eligibility_filter_contract.1 ownedItem 42 [] [] [],
   eligibility_filter_contract.2.1 ⟨13, "d", 103, "User", 1, some 0, "Bundle"⟩
     42 [] [] [] rfl rfl,
   eligibility_filter_contract.2.2.1 ownedItem 42 [] [] [],
   eligibility_filter_contract.2.2.2.1 ownedItem [] [] [],
   eligibility_filter_contract.2.2.2.2 ownedItem ⟨[.ok 42], [.ok true], []⟩
     [Event.visit 10, .callWhoAmI, .callOwned] ⟨[], [], []⟩ rfl⟩

/-- C8 witness: a single item whose acquisition needed a transport retry and a
rate-limit retry still contributes at most one tally increment. -/
theorem item_counted_at_most_once_witness :
    ([.visit 11, .callWhoAmI, .callOwned, .callPurchase, .printFailed, .callPurchase,
      .printRatelimit, .sleep 65, .callPurchase, .printPurchased, .sleep 1,
      .incrementTally] : List Event).count .incrementTally ≤ 1 :=
  item_counted_at_most_once freeItem
    ⟨[.ok 1], [.ok false], [.transportErr, .ok ⟨some [⟨27⟩]⟩, .ok ⟨none⟩]⟩
    [.visit 11, .callWhoAmI, .callOwned, .callPurchase, .printFailed, .callPurchase,
      .printRatelimit, .sleep 65, .callPurchase, .printPurchased, .sleep 1,
      .incrementTally]
    (.ok true) ⟨[], [], []⟩ rfl
